import Mathlib

/-!
Doc-Manipulation: the page controller `static/script.js`.

A shallow embedding of the browser-side controller of the document-conversion
application, and the properties of its specification checked against it.

Conventions of the embedding.

* A JavaScript string is the list of its UTF-16 code units; `js "..."` is the
  string with the given text.
* A parsed JSON value is a `JSValue`. Objects are kept as the list of their own
  properties in enumeration order, which is the order `Object.entries` yields.
* An IEEE double is kept as the two observations the script can make of it:
  its decimal rendering and its truthiness.
* A thrown value is a `Thrown`; the message of an engine-raised `TypeError` is
  not fixed by the language and stays symbolic.
* The syntax highlighter is a library outside the script: `window.hljs` is an
  optional parameter of the handlers, kept as the effect of its one call.
* The DOM is explicit state: each handler is a function from the state before
  to the state after, given the outcome of the asynchronous calls it awaits.
-/

namespace DocManipulation

set_option maxRecDepth 20000

/-! ## JavaScript values -/

/-- A JavaScript string: the list of its UTF-16 code units, each a number
below 65536. The script copies and compares code units and never computes on
them. -/
abbrev JSString := List Nat

/-- The UTF-16 code units of one character: itself in the basic plane, a
surrogate pair above it. -/
def utf16 (c : Char) : List Nat :=
  if c.toNat < 65536 then [c.toNat]
  else [55296 + (c.toNat - 65536) / 1024, 56320 + (c.toNat - 65536) % 1024]

/-- The JavaScript string with the given text. -/
def js (text : String) : JSString :=
  text.toList.flatMap utf16

/-- An IEEE double, as the script observes it. -/
structure JSNumber where
  /-- The result of `Number::toString`. -/
  shown : JSString
  /-- The result of `ToBoolean`: false for `+0`, `-0` and `NaN`. -/
  truthy : Bool

/-- A value produced by `JSON.parse`, or `undefined` for a missing property. -/
inductive JSValue where
  | undefined
  | null
  | bool (b : Bool)
  | number (n : JSNumber)
  | string (s : JSString)
  | array (items : List JSValue)
  | object (props : List (JSString × JSValue))

/-- What `error.message` evaluates to in a `catch` block. -/
inductive Message where
  | text (s : JSString)
  | engineTypeError
  deriving DecidableEq

/-- A thrown value or the reason of a rejected promise. -/
inductive Thrown where
  /-- An error object carrying this message: `new Error(message)`, or the
  rejection reason of `fetch`, `json()`, `blob()` or `writeText`. -/
  | error (message : JSString)
  /-- A `TypeError` raised by the engine (property read on `null`, call of a
  non-function, conversion of an object without a callable `toString`). -/
  | typeError
  deriving DecidableEq

/-- The expression `error.message`. -/
def Thrown.message : Thrown → Message
  | .error m => .text m
  | .typeError => .engineTypeError

/-- The abstract operation `ToBoolean`. -/
def JSValue.truthy : JSValue → Bool
  | .undefined => false
  | .null => false
  | .bool b => b
  | .number n => n.truthy
  | .string s => s != []
  | .array _ => true
  | .object _ => true

/-- Whether an object out of `JSON.parse` has an own property of this name. -/
def hasOwn (key : JSString) (props : List (JSString × JSValue)) : Bool :=
  props.any fun p => p.1 == key

mutual
/-- The abstract operation `ToString`, as a template literal and `new Error`
apply it. An object is converted by its `toString` method: the inherited one
yields `[object Object]`, while an own property `toString`, which out of
`JSON.parse` is never callable, shadows it, and then neither it nor `valueOf`
yields a primitive, so the conversion throws. An array is converted by `join`. -/
def JSValue.toStr : JSValue → Except Thrown JSString
  | .undefined => .ok (js "undefined")
  | .null => .ok (js "null")
  | .bool true => .ok (js "true")
  | .bool false => .ok (js "false")
  | .number n => .ok n.shown
  | .string s => .ok s
  | .array items => joinItems items
  | .object props =>
    if hasOwn (js "toString") props then .error .typeError else .ok (js "[object Object]")
/-- The method `Array.prototype.join` with the default separator: `null` and
`undefined` elements contribute the empty string, the others are converted in
order. -/
def joinItems : List JSValue → Except Thrown JSString
  | [] => .ok []
  | [.undefined] => .ok []
  | [.null] => .ok []
  | [x] => x.toStr
  | .undefined :: rest =>
    match joinItems rest with
    | .ok tail => .ok (js "," ++ tail)
    | .error e => .error e
  | .null :: rest =>
    match joinItems rest with
    | .ok tail => .ok (js "," ++ tail)
    | .error e => .error e
  | x :: rest =>
    match x.toStr with
    | .error e => .error e
    | .ok head =>
      match joinItems rest with
      | .ok tail => .ok (head ++ js "," ++ tail)
      | .error e => .error e
end

/-- Lookup of an own property in the enumeration-ordered property list. -/
def lookupProp (key : JSString) : List (JSString × JSValue) → JSValue
  | [] => .undefined
  | (k, v) :: rest => if k = key then v else lookupProp key rest

/-- The property read `v.key`, for the property names the script reads
(`metadata`, `text`, `markdown`, `images`, `tables`, `mime`, `data`,
`filename`, `error`): none of them is defined on a built-in prototype, so the
read yields the own property of an object and `undefined` on every other
value, and throws on `null` and `undefined`. -/
def JSValue.get (v : JSValue) (key : JSString) : Except Thrown JSValue :=
  match v with
  | .undefined => .error .typeError
  | .null => .error .typeError
  | .object props => .ok (lookupProp key props)
  | _ => .ok .undefined

/-- Pairs each element with the decimal rendering of its index, from `i` on. -/
def indexed {α : Type} (i : Nat) : List α → List (JSString × α)
  | [] => []
  | x :: rest => (js (toString i), x) :: indexed (i + 1) rest

/-- The function `Object.entries`: the own properties of an object, the
indexed elements of an array, the indexed code units of a string, nothing for
a number or a boolean. -/
def objectEntries : JSValue → Except Thrown (List (JSString × JSValue))
  | .undefined => .error .typeError
  | .null => .error .typeError
  | .bool _ => .ok []
  | .number _ => .ok []
  | .string s => .ok (indexed 0 (s.map fun unit => JSValue.string [unit]))
  | .array items => .ok (indexed 0 items)
  | .object props => .ok props

/-- The loop of `Array.prototype.forEach` from index `i` on. The callback
threads the accumulated markup and receives the element and its index; a throw
inside the callback ends the loop. -/
def forEachFrom (f : JSString → JSValue → Nat → Except Thrown JSString) :
    Nat → List JSValue → JSString → Except Thrown JSString
  | _, [], html => .ok html
  | i, x :: rest, html =>
    match f html x i with
    | .ok html1 => forEachFrom f (i + 1) rest html1
    | .error e => .error e

/-- The call `v.forEach(f)` on a value out of `JSON.parse`: only an array has
a callable `forEach`. -/
def forEach (v : JSValue) (f : JSString → JSValue → Nat → Except Thrown JSString)
    (html : JSString) : Except Thrown JSString :=
  match v with
  | .array items => forEachFrom f 0 items html
  | _ => .error .typeError

/-- The loop `for (const [key, value] of entries)`. The body threads the
accumulated markup; a throw inside the body ends the loop. -/
def forOf (body : JSString → JSString → JSValue → Except Thrown JSString) :
    List (JSString × JSValue) → JSString → Except Thrown JSString
  | [], html => .ok html
  | (key, value) :: rest, html =>
    match body html key value with
    | .ok html1 => forOf body rest html1
    | .error e => .error e

/-- The call `s.replace(/c/g, replacement)` for a pattern of one character
with code unit `c` and a replacement without `$`: every occurrence of `c`
becomes `replacement`. -/
def replaceUnit (s : JSString) (c : Nat) (replacement : JSString) : JSString :=
  s.flatMap fun x => if x = c then replacement else [x]

/-! ## The rendering routine `renderJSONResults` -/

/-- The body of the loop of the metadata branch (line 128). -/
def metadataLine (html key : JSString) (value : JSValue) : Except Thrown JSString :=
  match value.toStr with
  | .ok shown =>
    .ok (html ++ (js "<tr><th scope=\"row\" style=\"width: 30%\">" ++ key ++ js "</th><td>"
      ++ shown ++ js "</td></tr>"))
  | .error e => .error e

/-- The body of the `data.metadata` branch: the markup assigned to
`resultsBody.innerHTML`. -/
def metadataBranch (metadata : JSValue) : Except Thrown JSString := do
  let html := js "<table class=\"table table-striped\"><tbody>"
  let entries ← objectEntries metadata
  let html ← forOf metadataLine entries html
  let html := html ++ js "</tbody></table>"
  return html

/-- The body of the `data.text` branch. -/
def textBranch (text : JSValue) : Except Thrown JSString := do
  let shown ← text.toStr
  return js "<textarea class=\"form-control\" rows=\"10\">" ++ shown ++ js "</textarea>"

/-- The three chained `replace` calls of the markdown branch, applied to
`data.markdown || ""`; a value that is not a string has no `replace` method.
The code units replaced are those of `&` (38), `<` (60) and `>` (62). -/
def escapeMarkdown (markdown : JSValue) : Except Thrown JSString :=
  match (if markdown.truthy then markdown else .string []) with
  | .string s =>
    .ok (replaceUnit (replaceUnit (replaceUnit s 38 (js "&amp;")) 60 (js "&lt;")) 62 (js "&gt;"))
  | _ => .error .typeError

/-- The markup the `typeof data.markdown !== "undefined"` branch assigns. -/
def markdownBranch (markdown : JSValue) : Except Thrown JSString := do
  let escaped ← escapeMarkdown markdown
  return js "<pre><code class=\"language-markdown\" style=\"border-radius: 8px;\">" ++ escaped
    ++ js "</code></pre>"

/-- The callback of `data.images.forEach`. -/
def imageCard (html : JSString) (img : JSValue) (_index : Nat) : Except Thrown JSString := do
  let mime ← (← img.get (js "mime")).toStr
  let data ← (← img.get (js "data")).toStr
  let filename ← (← img.get (js "filename")).toStr
  return html ++ (js "\n                    <div class=\"col-md-4 mb-4\">\n                        <div class=\"card h-100\">\n                            <img src=\"data:"
    ++ mime ++ js ";base64," ++ data
    ++ js "\" class=\"card-img-top\" style=\"max-height: 200px; object-fit: contain; padding: 10px;\">\n                            <div class=\"card-body text-center\">\n                                <p class=\"card-text small text-muted\">"
    ++ filename
    ++ js "</p>\n                            </div>\n                        </div>\n                    </div>")

/-- The body of the `data.images` branch. -/
def imagesBranch (images : JSValue) : Except Thrown JSString := do
  let html := js "<div class=\"row\">"
  let html ← forEach images imageCard html
  let html := html ++ js "</div>"
  return html

/-- The callback of `row.forEach`. -/
def tableCell (html : JSString) (cell : JSValue) (_index : Nat) : Except Thrown JSString := do
  let shown ← cell.toStr
  return html ++ (js "<td>" ++ shown ++ js "</td>")

/-- The callback of `table.forEach`. -/
def tableRow (html : JSString) (row : JSValue) (_index : Nat) : Except Thrown JSString := do
  let html := html ++ js "<tr>"
  let html ← forEach row tableCell html
  let html := html ++ js "</tr>"
  return html

/-- The callback of `data.tables.forEach`. -/
def tableGrid (html : JSString) (table : JSValue) (index : Nat) : Except Thrown JSString := do
  let html := html ++ (js "<h5>Table " ++ js (toString (index + 1))
    ++ js "</h5><table class=\"table table-bordered table-sm mb-4\">")
  let html ← forEach table tableRow html
  let html := html ++ js "</table>"
  return html

/-- The body of the `data.tables` branch. -/
def tablesBranch (tables : JSValue) : Except Thrown JSString :=
  forEach tables tableGrid []

/-- Whether `typeof v !== "undefined"`. -/
def JSValue.isDefined : JSValue → Bool
  | .undefined => false
  | _ => true

/-- What a call of `renderJSONResults` does to the page when it does not
throw first. -/
structure Rendering where
  /-- The markup assigned to `resultsBody.innerHTML`. -/
  html : JSString
  /-- Whether the call goes on to the test `if (window.hljs)` of line 141,
  which only the markdown branch does. -/
  highlight : Bool
  deriving DecidableEq

/-- The function `renderJSONResults(data)`: the assignment it makes to
`resultsBody.innerHTML`, `none` when it makes none, or the value thrown before
any assignment. The call of the highlighter that follows the assignment of the
markdown branch is made by `applyRendering`. -/
def renderJSONResults (data : JSValue) : Except Thrown (Option Rendering) := do
  if (← data.get (js "metadata")).truthy then
    return some { html := ← metadataBranch (← data.get (js "metadata")), highlight := false }
  else if (← data.get (js "text")).truthy then
    return some { html := ← textBranch (← data.get (js "text")), highlight := false }
  else if (← data.get (js "markdown")).isDefined then
    return some { html := ← markdownBranch (← data.get (js "markdown")), highlight := true }
  else if (← data.get (js "images")).truthy then
    return some { html := ← imagesBranch (← data.get (js "images")), highlight := false }
  else if (← data.get (js "tables")).truthy then
    return some { html := ← tablesBranch (← data.get (js "tables")), highlight := false }
  else
    return none

/-! ## Strings and the `content-disposition` pattern -/

/-- The call `s.includes(pattern)`, equivalently `s.indexOf(pattern) !== -1`. -/
def includes (s pattern : JSString) : Bool :=
  s.tails.any fun t => pattern.isPrefixOf t

/-- The code units that `.` does not match in a pattern without the `s` flag:
line feed, carriage return, U+2028 and U+2029. -/
def isLineTerminator (c : Nat) : Bool :=
  c == 10 || c == 13 || c == 8232 || c == 8233

/-- The character class `['"]`: the single quote (39) and the double quote
(34). -/
def isQuote (c : Nat) : Bool :=
  c == 39 || c == 34

/-- The capture group `((['"]).*?\2|[^;\n]*)` matched at the start of `s`.
First alternative: an opening quote `q`, then the lazy `.*?` advances one code
unit at a time, stopping at the first `q` and failing on a line terminator met
before it. Second alternative, taken when the first fails: the longest run
without `;` (59) and line feed (10), which always matches. Nothing follows the
group in the pattern, so the first success is the match. -/
def matchGroup (s : JSString) : JSString :=
  match s with
  | q :: rest =>
    let body := rest.takeWhile fun c => c != q
    if isQuote q && !(rest.dropWhile fun c => c != q).isEmpty
        && body.all (fun c => !isLineTerminator c) then
      q :: (body ++ [q])
    else
      s.takeWhile fun c => c != 59 && c != 10
  | [] => []

/-- The pattern `/filename[^;=\n]*=((['"]).*?\2|[^;\n]*)/` matched at the
start of `s`; the result is capture group 1. The greedy class `[^;=\n]*`
excludes `=` (61), so no shorter run can be followed by `=` and the longest
run is the only candidate. -/
def matchAt (s : JSString) : Option JSString :=
  if (js "filename").isPrefixOf s then
    match (s.drop 8).dropWhile fun c => c != 59 && c != 61 && c != 10 with
    | 61 :: rest => some (matchGroup rest)
    | _ => none
  else
    none

/-- The call `filenameRegex.exec(disposition)`: the leftmost match, as capture
group 1, or `none` for `null`. -/
def execFilename : JSString → Option JSString
  | [] => matchAt []
  | c :: rest =>
    match matchAt (c :: rest) with
    | some group => some group
    | none => execFilename rest

/-- Lines 101 to 109 of the script: the download name taken from the
`content-disposition` header, `download.docx` by default. -/
def downloadFilename (disposition : Option JSString) : JSString :=
  match disposition with
  | none => js "download.docx"
  | some d =>
    if d != [] && includes d (js "attachment") then
      match execFilename d with
      | some group =>
        if !group.isEmpty then group.filter fun c => !isQuote c
        else js "download.docx"
      | none => js "download.docx"
    else js "download.docx"

/-! ## The page and the submit handler -/

/-- A response of `fetch`, as the handler observes it. -/
structure Response where
  /-- The flag `response.ok`. -/
  ok : Bool
  /-- The number `response.status`, a 16-bit integer, which a template literal
  renders in decimal. -/
  status : Nat
  /-- The string `response.statusText`. -/
  statusText : JSString
  /-- The result of `response.headers.get("content-type")`, `none` for `null`. -/
  contentType : Option JSString
  /-- The result of `response.headers.get("content-disposition")`. -/
  contentDisposition : Option JSString
  /-- The outcome of `await response.json()`. -/
  json : Except Thrown JSValue
  /-- The outcome of `await response.blob()`. -/
  blob : Except Thrown Unit

/-- The call `hljs.highlightElement(resultsBody.querySelector("code"))` of a
highlighter present on the page: from the markup of the results body before
the call to the markup the call leaves and the value it throws, if any. -/
abbrev Highlighter := JSString → JSString × Option Thrown

/-- A pending `setTimeout` callback of the copy button. -/
structure Timer where
  /-- The time at which the callback runs. -/
  due : Nat
  /-- The captured `originalHtml`. -/
  originalHtml : JSString

/-- The part of the page the script reads and writes. -/
structure Page where
  /-- The property `loadingOverlay.style.display`. -/
  overlayDisplay : JSString
  /-- The property `resultsSection.style.display`. -/
  resultsDisplay : JSString
  /-- The markup of the results body, `resultsBody.innerHTML`. -/
  resultsBody : JSString
  /-- The arguments of the `alert` calls made so far, oldest first. -/
  alerts : List Message
  /-- The `download` names of the synthetic anchors clicked so far. -/
  downloads : List JSString
  /-- The endpoints passed to `fetch` so far, `none` for `null`. -/
  requests : List (Option JSString)
  /-- The property `copyBtn.innerHTML`. -/
  copyHtml : JSString
  /-- The tokens of `copyBtn.classList`. -/
  copyClasses : List JSString
  /-- The pending timers, in the order they were set. -/
  timers : List Timer
  /-- The current time in milliseconds. -/
  now : Nat
  /-- The messages of the errors passed to `console.error`. -/
  consoleErrors : List Message

/-- An `input` element of a form. -/
structure Input where
  name : JSString
  value : JSString

/-- A `form` element: its attributes and its `input` descendants in document
order. -/
structure Form where
  attributes : List (JSString × JSString)
  inputs : List Input

/-- The call `form.getAttribute(name)`. -/
def Form.getAttribute (form : Form) (name : JSString) : Option JSString :=
  (form.attributes.find? fun a => a.1 == name).map fun a => a.2

/-- The call `form.setAttribute(name, value)`: the value of an existing
attribute is replaced, a new attribute is added. -/
def Form.setAttribute (form : Form) (name value : JSString) : Form :=
  if form.attributes.any fun a => a.1 == name then
    { form with attributes := form.attributes.map fun a => if a.1 == name then (a.1, value) else a }
  else
    { form with attributes := form.attributes ++ [(name, value)] }

/-- The expression `"/api/" + featureInput.value` of the `forms.forEach`
callback, computed when `form.querySelector('input[name="feature"]')` finds an
element: the endpoint the script computes for the form, `none` when it
computes none. -/
def computedEndpoint (form : Form) : Option JSString :=
  (form.inputs.find? fun i => i.name == js "feature").map fun featureInput =>
    js "/api/" ++ featureInput.value

/-- The part of the `forms.forEach` callback that runs at page load (lines 51
to 54). -/
def setupForm (form : Form) : Form :=
  match computedEndpoint form with
  | some endpoint => form.setAttribute (js "data-endpoint") endpoint
  | none => form

/-- The test `contentType && contentType.includes("application/json")`. -/
def isJsonType (contentType : Option JSString) : Bool :=
  match contentType with
  | none => false
  | some ct => ct != [] && includes ct (js "application/json")

/-- The value of `errorMsg` at line 87, or the value thrown while computing
it. -/
def errorMsg (response : Response) : Except Thrown JSValue :=
  if isJsonType response.contentType then
    match response.json with
    | .error e => .error e
    | .ok errData =>
      match errData.get (js "error") with
      | .error e => .error e
      | .ok error => .ok (if error.truthy then error else .string (js "An error occurred"))
  else
    .ok (.string (js "Error " ++ js (toString response.status) ++ js ": "
      ++ response.statusText))

/-- The value thrown by the block `if (!response.ok)` (lines 79 to 88): the
error made by `new Error(errorMsg)`, whose message is `errorMsg` converted to
a string, or what was thrown on the way. -/
def failureThrown (response : Response) : Thrown :=
  match errorMsg response with
  | .error e => e
  | .ok msg =>
    match msg.toStr with
    | .ok message => .error message
    | .error e => e

/-- The effect of a call of `renderJSONResults` that reaches its assignment:
the assignment to `resultsBody.innerHTML`, then for the markdown branch the
call of the highlighter when `window.hljs` is set (lines 141 to 143). The
result is the page left and the value thrown, if any. -/
def applyRendering (hljs : Option Highlighter) (rendering : Rendering) (page : Page) :
    Page × Option Thrown :=
  let page := { page with resultsBody := rendering.html }
  if rendering.highlight then
    match hljs with
    | none => (page, none)
    | some highlightElement =>
      ({ page with resultsBody := (highlightElement page.resultsBody).1 },
        (highlightElement page.resultsBody).2)
  else
    (page, none)

/-- The `try` block of the submit handler, from the settled `fetch` on: the
page it leaves and the value it throws, if any. -/
def submitTry (hljs : Option Highlighter) (fetched : Except Thrown Response) (page : Page) :
    Page × Option Thrown :=
  match fetched with
  | .error e => (page, some e)
  | .ok response =>
    let contentType := response.contentType
    if !response.ok then
      (page, some (failureThrown response))
    else
      match contentType with
      | none => (page, some .typeError)
      | some ct =>
        if includes ct (js "application/json") then
          match response.json with
          | .error e => (page, some e)
          | .ok data =>
            match renderJSONResults data with
            | .error e => (page, some e)
            | .ok none => ({ page with resultsDisplay := js "block" }, none)
            | .ok (some rendering) =>
              match applyRendering hljs rendering page with
              | (page, some e) => (page, some e)
              | (page, none) => ({ page with resultsDisplay := js "block" }, none)
        else
          match response.blob with
          | .error e => (page, some e)
          | .ok _ =>
            let filename := downloadFilename response.contentDisposition
            ({ page with downloads := page.downloads ++ [filename] }, none)

/-- The submit handler of a form, given the highlighter of the page, if any,
and how `fetch` settles for each endpoint. -/
def submitHandler (hljs : Option Highlighter) (form : Form)
    (fetch : Option JSString → Except Thrown Response) (page : Page) : Page :=
  let page :=
    { page with overlayDisplay := js "flex", resultsDisplay := js "none", resultsBody := [] }
  let endpoint := form.getAttribute (js "data-endpoint")
  let page := { page with requests := page.requests ++ [endpoint] }
  let page :=
    match submitTry hljs (fetch endpoint) page with
    | (done, none) => done
    | (left, some error) => { left with alerts := left.alerts ++ [error.message] }
  { page with overlayDisplay := js "none" }

/-! ## The copy button -/

/-- What the click handler of the copy button finds in the results body. -/
structure Rendered where
  /-- The `value` of the first `textarea`, if there is one. -/
  textarea : Option JSString
  /-- The `textContent` of the first `code` element, if there is one. -/
  codeBlock : Option JSString
  /-- The property `resultsBody.innerText`. -/
  innerText : JSString

/-- The call `classList.remove(token)`. -/
def classRemove (classes : List JSString) (token : JSString) : List JSString :=
  classes.filter fun c => c != token

/-- The call `classList.add(token)`. -/
def classAdd (classes : List JSString) (token : JSString) : List JSString :=
  if classes.contains token then classes else classes ++ [token]

/-- The callback passed to `then`: runs when the clipboard write succeeds. -/
def copyThen (page : Page) : Page :=
  let originalHtml := page.copyHtml
  { page with
    copyHtml := js "<i class=\"bi bi-check-lg\"></i>"
    copyClasses :=
      classAdd (classRemove page.copyClasses (js "btn-outline-secondary")) (js "btn-success")
    timers := page.timers ++ [{ due := page.now + 2000, originalHtml := originalHtml }] }

/-- The callback passed to `setTimeout`. -/
def timerCallback (timer : Timer) (page : Page) : Page :=
  { page with
    copyHtml := timer.originalHtml
    copyClasses :=
      classAdd (classRemove page.copyClasses (js "btn-success")) (js "btn-outline-secondary") }

/-- The callback passed to `catch`: runs when the clipboard write fails. -/
def copyCatch (err : Thrown) (page : Page) : Page :=
  { page with
    consoleErrors := page.consoleErrors ++ [err.message]
    alerts := page.alerts ++ [Message.text (js "Failed to copy to clipboard")] }

/-- The text the click handler copies (lines 14 to 24): the value of the
text area, else the text of the code block, else the rendered text. -/
def textToCopy (rendered : Rendered) : JSString :=
  match rendered.textarea with
  | some value => value
  | none =>
    match rendered.codeBlock with
    | some textContent => textContent
    | none => rendered.innerText

/-- The click handler of the copy button, given how `writeText` settles. -/
def copyClick (rendered : Rendered) (writeText : JSString → Except Thrown Unit)
    (page : Page) : Page :=
  if textToCopy rendered != [] then
    match writeText (textToCopy rendered) with
    | .ok _ => copyThen page
    | .error err => copyCatch err page
  else
    page

/-- The passage of `dt` milliseconds: the timers due by then run in the order
they were set, which for the single delay of the script is the order of their
due times. -/
def advance (dt : Nat) (page : Page) : Page :=
  let time := page.now + dt
  let page := (page.timers.filter fun t => t.due ≤ time).foldl
    (fun p t => timerCallback t p) page
  { page with timers := page.timers.filter (fun t => !(t.due ≤ time)), now := time }

/-! ## Sample pages, forms and responses -/

/-- The page a test starts from: nothing shown, nothing pending. -/
def blankPage : Page :=
  { overlayDisplay := js "none", resultsDisplay := js "none", resultsBody := [], alerts := [],
    downloads := [], requests := [], copyHtml := js "<i class=\"bi bi-clipboard\"></i>",
    copyClasses := [js "btn", js "btn-outline-secondary"], timers := [], now := 0,
    consoleErrors := [] }

/-- A form with the hidden field `feature` of value `convert`. -/
def convertForm : Form :=
  { attributes := [(js "method", js "post")],
    inputs := [{ name := js "feature", value := js "convert" }] }

/-- A response with the given status line and headers, whose body neither
parses as JSON nor fails as a blob. -/
def plainResponse (ok : Bool) (status : Nat) (statusText : JSString)
    (contentType contentDisposition : Option JSString) : Response :=
  { ok := ok, status := status, statusText := statusText, contentType := contentType,
    contentDisposition := contentDisposition,
    json := .error (.error (js "Unexpected token")), blob := .ok () }

/-- A response with a non-success status whose JSON body parses to `body`. -/
def jsonFailure (status : Nat) (statusText : JSString) (body : JSValue) : Response :=
  { ok := false, status := status, statusText := statusText,
    contentType := some (js "application/json"), contentDisposition := none,
    json := .ok body, blob := .ok () }

/-- A successful response whose JSON body parses to `body`. -/
def jsonSuccess (body : JSValue) : Response :=
  { ok := true, status := 200, statusText := js "OK",
    contentType := some (js "application/json"), contentDisposition := none,
    json := .ok body, blob := .ok () }

/-- A successful binary response with the given content-disposition header. -/
def binaryResponse (disposition : Option JSString) : Response :=
  plainResponse true 200 (js "OK")
    (some (js "application/vnd.openxmlformats-officedocument.wordprocessingml.document"))
    disposition

/-- A results body holding a text area with the text `hello`. -/
def helloRendered : Rendered :=
  { textarea := some (js "hello"), codeBlock := none, innerText := js "hello" }

/-- Two successful copies one second apart, observed two seconds after the
second one. -/
def copiedTwice : Page :=
  advance 2000 (copyClick helloRendered (fun _ => .ok ())
    (advance 1000 (copyClick helloRendered (fun _ => .ok ()) blankPage)))

/-! ## Reference definitions for the rendering properties -/

/-- The falsy values among parsed JSON values: `undefined`, `null`, `false`,
the empty string and the numbers `0` and `NaN`. -/
def isFalsy : JSValue → Bool
  | .undefined => true
  | .null => true
  | .bool b => !b
  | .number n => !n.truthy
  | .string s => s.isEmpty
  | .array _ => false
  | .object _ => false

/-- A primitive JSON value: `null`, a boolean, a number or a string. -/
inductive Primitive where
  | null
  | bool (b : Bool)
  | number (n : JSNumber)
  | string (s : JSString)

/-- The primitive as a parsed JSON value. -/
def Primitive.value : Primitive → JSValue
  | .null => .null
  | .bool b => .bool b
  | .number n => .number n
  | .string s => .string s

/-- The text a primitive shows as in markup: a string as itself, a number in
its decimal rendering, a boolean and `null` by their name. -/
def Primitive.text : Primitive → JSString
  | .null => js "null"
  | .bool true => js "true"
  | .bool false => js "false"
  | .number n => n.shown
  | .string s => s

/-- The escape of one code unit as the specification words it: `&` (38), `<`
(60) and `>` (62) become their entity, every other code unit stays. -/
def escapeOnce (c : Nat) : JSString :=
  if c = 38 then js "&amp;"
  else if c = 60 then js "&lt;"
  else if c = 62 then js "&gt;"
  else [c]

/-- The text in which every code unit of `m` is escaped exactly once. -/
def escapedText (m : JSString) : JSString :=
  m.flatMap escapeOnce

/-- One row of the metadata table: a header cell with the key and a data cell
with the text of the value. -/
def metadataRowMarkup (key shown : JSString) : JSString :=
  js "<tr><th scope=\"row\" style=\"width: 30%\">" ++ key ++ js "</th><td>" ++ shown
    ++ js "</td></tr>"

/-- The metadata table with the given rows, each a key and the text of its
value. -/
def metadataTableMarkup (rows : List (JSString × JSString)) : JSString :=
  js "<table class=\"table table-striped\"><tbody>"
    ++ (rows.map fun r => metadataRowMarkup r.1 r.2).flatten ++ js "</tbody></table>"

/-- The text box with the given text: a `textarea` of ten rows. -/
def textBoxMarkup (text : JSString) : JSString :=
  js "<textarea class=\"form-control\" rows=\"10\">" ++ text ++ js "</textarea>"

/-- The code block labelled as markdown that holds the escaped text of `m`. -/
def markdownBlockMarkup (m : JSString) : JSString :=
  js "<pre><code class=\"language-markdown\" style=\"border-radius: 8px;\">" ++ escapedText m
    ++ js "</code></pre>"

/-- An image of a result, as the specification describes it. -/
structure Image where
  mime : JSString
  data : JSString
  filename : JSString

/-- The parsed value `v` is an object whose `mime`, `data` and `filename` are
the strings of `img`, whatever other keys it carries. -/
def IsImage (v : JSValue) (img : Image) : Prop :=
  ∃ own, v = .object own ∧ lookupProp (js "mime") own = .string img.mime
    ∧ lookupProp (js "data") own = .string img.data
    ∧ lookupProp (js "filename") own = .string img.filename

/-- The card of one image: the inline image and its caption. -/
def imageCardMarkup (img : Image) : JSString :=
  js "\n                    <div class=\"col-md-4 mb-4\">\n                        <div class=\"card h-100\">\n                            <img src=\"data:"
    ++ img.mime ++ js ";base64," ++ img.data
    ++ js "\" class=\"card-img-top\" style=\"max-height: 200px; object-fit: contain; padding: 10px;\">\n                            <div class=\"card-body text-center\">\n                                <p class=\"card-text small text-muted\">"
    ++ img.filename
    ++ js "</p>\n                            </div>\n                        </div>\n                    </div>"

/-- The grid of the cards of the given images, in order. -/
def imageGridMarkup (imgs : List Image) : JSString :=
  js "<div class=\"row\">" ++ (imgs.map imageCardMarkup).flatten ++ js "</div>"

/-- A table of a result as a parsed value: an array of arrays of strings. -/
def tableValue (rows : List (List JSString)) : JSValue :=
  .array (rows.map fun cells => .array (cells.map fun cell => .string cell))

/-- One row of a table grid: one cell per string, verbatim. -/
def gridRowMarkup (cells : List JSString) : JSString :=
  js "<tr>" ++ (cells.map fun cell => js "<td>" ++ cell ++ js "</td>").flatten ++ js "</tr>"

/-- The grids of the given tables, the first one headed `Table i + 1`. -/
def tableGridsMarkup (i : Nat) : List (List (List JSString)) → JSString
  | [] => []
  | rows :: rest =>
    js "<h5>Table " ++ js (toString (i + 1))
      ++ js "</h5><table class=\"table table-bordered table-sm mb-4\">"
      ++ (rows.map gridRowMarkup).flatten ++ js "</table>" ++ tableGridsMarkup (i + 1) rest

/-- A piece of markup: a tag `<...>` or the text between two tags. -/
inductive Piece where
  | tag (inside : JSString)
  | text (content : JSString)
  deriving DecidableEq

/-- The pieces of a markup: `<` (60) opens a tag, `>` (62) closes it. -/
def pieces (inTag : Bool) (acc : JSString) : JSString → List Piece
  | [] => if inTag then [] else [.text acc]
  | c :: rest =>
    if inTag then
      if c = 62 then .tag acc :: pieces false [] rest else pieces true (acc ++ [c]) rest
    else
      if c = 60 then .text acc :: pieces true [] rest else pieces false (acc ++ [c]) rest

/-- Whether the inside of a tag names the element `name`, with or without
attributes. -/
def isTag (inside name : JSString) : Bool :=
  inside == name || (name ++ js " ").isPrefixOf inside

/-- A reader of table rows: the rows read, the cells of the open row and the
text of the open cell. -/
structure TableReader where
  rows : List (List JSString)
  row : List JSString
  cell : Option JSString

/-- One step of the reader: `tr` opens a row and `/tr` closes it, `th` and
`td` open a cell and `/th` and `/td` close it, text inside a cell is its
content. -/
def TableReader.step (r : TableReader) : Piece → TableReader
  | .text s =>
    match r.cell with
    | some c => { r with cell := some (c ++ s) }
    | none => r
  | .tag t =>
    if isTag t (js "tr") then { r with row := [], cell := none }
    else if t == js "/tr" then { rows := r.rows ++ [r.row], row := [], cell := none }
    else if isTag t (js "th") || isTag t (js "td") then { r with cell := some [] }
    else if t == js "/th" || t == js "/td" then
      match r.cell with
      | some c => { r with row := r.row ++ [c], cell := none }
      | none => r
    else r

/-- The table rows of a markup, read tag by tag: each row is the list of the
texts of its cells. -/
def readRows (markup : JSString) : List (List JSString) :=
  ((pieces false [] markup).foldl TableReader.step { rows := [], row := [], cell := none }).rows

/-! ## The submit handler: cleanup and error messages -/

/-- Claim C5. Whatever the outcome of the request (a rejected `fetch`, a
non-success status with or without a JSON body, a JSON result, a body that
fails to parse, a download, a missing content-type header), the loading
overlay has display `none` when the submit handler finishes. -/
theorem submitHandler_hides_overlay (hljs : Option Highlighter) (form : Form)
    (fetch : Option JSString → Except Thrown Response) (page : Page) :
    (submitHandler hljs form fetch page).overlayDisplay = js "none" := by
  simp [submitHandler]

/-- Claim C6. For a response with a non-success status and a content-type that
does not include `application/json` (or no content-type header), the handler
shows one alert, with message `Error <status>: <statusText>`. -/
theorem submitHandler_status_alert (hljs : Option Highlighter) (form : Form)
    (fetch : Option JSString → Except Thrown Response) (page : Page) (r : Response)
    (hfetch : fetch (form.getAttribute (js "data-endpoint")) = .ok r)
    (hok : r.ok = false) (htype : isJsonType r.contentType = false) :
    (submitHandler hljs form fetch page).alerts
      = page.alerts
        ++ [Message.text (js "Error " ++ js (toString r.status) ++ js ": " ++ r.statusText)] := by
  simp [submitHandler, submitTry, failureThrown, errorMsg, hfetch, hok, htype, Thrown.message,
    JSValue.toStr]

/-- Witness of C6: status 500 with status text `Server Error` and an HTML
body gives the alert `Error 500: Server Error`. -/
theorem submitHandler_status_alert_witness :
    (submitHandler none convertForm
        (fun _ => .ok (plainResponse false 500 (js "Server Error") (some (js "text/html")) none))
        blankPage).alerts
      = [Message.text (js "Error 500: Server Error")] :=
  submitHandler_status_alert none convertForm _ blankPage
    (plainResponse false 500 (js "Server Error") (some (js "text/html")) none) rfl rfl
    (by decide)

/-- Claim C4, amended. For a response with a non-success status, a
content-type that includes `application/json` and a body that parses to an
object whose `error` is a non-empty string `X`, the submission is aborted
(nothing is rendered, the results stay hidden, nothing is downloaded) and the
one alert shown has message `X`. -/
theorem submitHandler_json_error_alert (hljs : Option Highlighter) (form : Form)
    (fetch : Option JSString → Except Thrown Response) (page : Page) (r : Response)
    (props : List (JSString × JSValue)) (X : JSString)
    (hfetch : fetch (form.getAttribute (js "data-endpoint")) = .ok r)
    (hok : r.ok = false) (htype : isJsonType r.contentType = true)
    (hbody : r.json = .ok (.object props))
    (herror : lookupProp (js "error") props = .string X) (hX : X ≠ js "") :
    (submitHandler hljs form fetch page).alerts = page.alerts ++ [Message.text X]
      ∧ (submitHandler hljs form fetch page).resultsBody = js ""
      ∧ (submitHandler hljs form fetch page).resultsDisplay = js "none"
      ∧ (submitHandler hljs form fetch page).downloads = page.downloads := by
  have hX2 : X ≠ [] := hX
  simp [submitHandler, submitTry, failureThrown, errorMsg, hfetch, hok, htype, hbody, herror,
    hX2, Thrown.message, JSValue.toStr, JSValue.get, JSValue.truthy]
  rfl

/-- Witness of C4: the body `{"error": "Unsupported file"}` with status 400. -/
theorem submitHandler_json_error_alert_witness :
    (submitHandler none convertForm
        (fun _ => .ok (jsonFailure 400 (js "Bad Request")
          (.object [(js "error", .string (js "Unsupported file"))])))
        blankPage).alerts
      = [Message.text (js "Unsupported file")] :=
  (submitHandler_json_error_alert none convertForm _ blankPage
    (jsonFailure 400 (js "Bad Request") (.object [(js "error", .string (js "Unsupported file"))]))
    [(js "error", .string (js "Unsupported file"))] (js "Unsupported file") rfl rfl
    (by decide) rfl rfl (by decide)).1

/-- Counterexample to C4 as stated: for the body `{"error": ""}` the alert is
`An error occurred`, not the empty string `X`. -/
theorem submitHandler_empty_error_alert :
    (jsonFailure 400 (js "Bad Request") (.object [(js "error", .string (js ""))])).ok = false
      ∧ isJsonType
          (jsonFailure 400 (js "Bad Request")
            (.object [(js "error", .string (js ""))])).contentType = true
      ∧ (submitHandler none convertForm
          (fun _ => .ok (jsonFailure 400 (js "Bad Request")
            (.object [(js "error", .string (js ""))])))
          blankPage).alerts
        = [Message.text (js "An error occurred")]
      ∧ (submitHandler none convertForm
          (fun _ => .ok (jsonFailure 400 (js "Bad Request")
            (.object [(js "error", .string (js ""))])))
          blankPage).alerts
        ≠ [Message.text (js "")] := by
  decide

/-! ## The download name -/

/-- Up to the first `q` of a list that has none before it. -/
theorem takeWhile_ne_append (f : JSString) (q : Nat) (h : q ∉ f) (tail : JSString) :
    (f ++ q :: tail).takeWhile (fun c => c != q) = f
      ∧ (f ++ q :: tail).dropWhile (fun c => c != q) = q :: tail := by
  induction f with
  | nil => simp
  | cons c rest ih =>
    have hc : c ≠ q := fun e => h (by simp [e])
    have hr : q ∉ rest := fun e => h (by simp [e])
    simp [hc, ih hr]

/-- The capture group on a double-quoted name takes the first alternative and
stops at the closing quote. -/
theorem matchGroup_quoted (f : JSString)
    (hq : 34 ∉ f) (hl : ∀ c ∈ f, isLineTerminator c = false) :
    matchGroup (34 :: (f ++ [34])) = 34 :: (f ++ [34]) := by
  have h := takeWhile_ne_append f 34 hq []
  simp only [matchGroup, h.1, h.2]
  have hall : (f.all fun c => !isLineTerminator c) = true := by
    simp only [List.all_eq_true]
    intro c hc
    simp [hl c hc]
  simp [hall, isQuote]

/-- The leftmost match in `attachment; filename="f"` starts at `filename`. -/
theorem execFilename_quoted (f : JSString)
    (hq : 34 ∉ f) (hl : ∀ c ∈ f, isLineTerminator c = false) :
    execFilename (js "attachment; filename=\"" ++ (f ++ js "\""))
      = some (34 :: (f ++ [34])) := by
  have h := matchGroup_quoted f hq hl
  have hliteral : js "attachment; filename=\"" ++ (f ++ js "\"")
      = 97 :: 116 :: 116 :: 97 :: 99 :: 104 :: 109 :: 101 :: 110 :: 116 :: 59 :: 32 :: 102
        :: 105 :: 108 :: 101 :: 110 :: 97 :: 109 :: 101 :: 61 :: 34 :: (f ++ [34]) := rfl
  have hname : js "filename" = [102, 105, 108, 101, 110, 97, 109, 101] := rfl
  rw [hliteral]
  simp [execFilename, matchAt, hname, h]

/-- Stripping the quotes of a quoted name without quotes gives the name. -/
theorem filter_quotes (f : JSString) (hq : ∀ c ∈ f, isQuote c = false) :
    (34 :: (f ++ [34])).filter (fun c => !isQuote c) = f := by
  have h1 : isQuote 34 = true := by decide
  simp only [List.filter_cons, h1, List.filter_append, List.filter_nil]
  simp only [Bool.not_true, Bool.false_eq_true, if_false, List.append_nil]
  rw [List.filter_eq_self]
  intro c hc
  simp [hq c hc]

/-- The download name for the header `attachment; filename="f"`. -/
theorem downloadFilename_quoted (f : JSString)
    (hq : ∀ c ∈ f, isQuote c = false)
    (hl : ∀ c ∈ f, isLineTerminator c = false) :
    downloadFilename (some (js "attachment; filename=\"" ++ f ++ js "\"")) = f := by
  have hq2 : 34 ∉ f := fun h => by
    have := hq _ h
    revert this; decide
  have hassoc : js "attachment; filename=\"" ++ f ++ js "\""
      = js "attachment; filename=\"" ++ (f ++ js "\"") := List.append_assoc _ _ _
  have hcons : js "attachment; filename=\"" ++ (f ++ js "\"")
      = 97 :: (js "ttachment; filename=\"" ++ (f ++ js "\"")) := rfl
  have hne : (js "attachment; filename=\"" ++ (f ++ js "\"") != []) = true := by
    rw [hcons]; rfl
  have hinc : includes (js "attachment; filename=\"" ++ (f ++ js "\"")) (js "attachment")
      = true := by
    have hliteral : js "attachment; filename=\"" ++ (f ++ js "\"")
        = 97 :: 116 :: 116 :: 97 :: 99 :: 104 :: 109 :: 101 :: 110 :: 116
          :: (js "; filename=\"" ++ (f ++ js "\"")) := rfl
    have hname : js "attachment" = [97, 116, 116, 97, 99, 104, 109, 101, 110, 116] := rfl
    rw [hliteral, hname]
    simp [includes, List.tails]
  rw [hassoc]
  simp only [downloadFilename, hne, hinc, Bool.and_self, if_true,
    execFilename_quoted f hq2 hl]
  simp only [List.isEmpty_cons, Bool.not_false, if_true, filter_quotes f hq]

/-- The handler on a successful response that is not JSON and whose blob
resolves: one download, named from the header. -/
theorem submitHandler_download (hljs : Option Highlighter) (form : Form)
    (fetch : Option JSString → Except Thrown Response) (page : Page) (r : Response)
    (ct : JSString)
    (hfetch : fetch (form.getAttribute (js "data-endpoint")) = .ok r)
    (hok : r.ok = true) (htype : r.contentType = some ct)
    (hjson : includes ct (js "application/json") = false) (hblob : r.blob = .ok ()) :
    (submitHandler hljs form fetch page).downloads
      = page.downloads ++ [downloadFilename r.contentDisposition] := by
  simp [submitHandler, submitTry, hfetch, hok, htype, hjson, hblob]

/-- Claim C3, amended. For a file name `f` without double quote, single quote
and line terminator, a successful non-JSON response with the header
`attachment; filename="f"` triggers a download named exactly `f`; without a
content-disposition header the download is named `download.docx`. -/
theorem submitHandler_download_name (hljs : Option Highlighter) (form : Form)
    (fetch : Option JSString → Except Thrown Response) (page : Page) (r : Response)
    (ct f : JSString)
    (hfetch : fetch (form.getAttribute (js "data-endpoint")) = .ok r)
    (hok : r.ok = true) (htype : r.contentType = some ct)
    (hjson : includes ct (js "application/json") = false) (hblob : r.blob = .ok ()) :
    (r.contentDisposition = some (js "attachment; filename=\"" ++ f ++ js "\"") →
        (∀ c ∈ f, isQuote c = false) →
        (∀ c ∈ f, isLineTerminator c = false) →
        (submitHandler hljs form fetch page).downloads = page.downloads ++ [f])
      ∧ (r.contentDisposition = none →
        (submitHandler hljs form fetch page).downloads
          = page.downloads ++ [js "download.docx"]) := by
  rw [submitHandler_download hljs form fetch page r ct hfetch hok htype hjson hblob]
  constructor
  · intro hd hq hl
    rw [hd, downloadFilename_quoted f hq hl]
  · intro hd
    rw [hd]
    rfl

/-- Witness of C3: the header `attachment; filename="report.docx"` gives the
download `report.docx`, and no header gives `download.docx`. -/
theorem submitHandler_download_name_witness :
    (submitHandler none convertForm
        (fun _ => .ok (binaryResponse (some (js "attachment; filename=\"report.docx\""))))
        blankPage).downloads = [js "report.docx"]
      ∧ (submitHandler none convertForm (fun _ => .ok (binaryResponse none))
          blankPage).downloads
        = [js "download.docx"] :=
  ⟨(submitHandler_download_name none convertForm _ blankPage
      (binaryResponse (some (js "attachment; filename=\"report.docx\""))) _ (js "report.docx")
      rfl rfl rfl (by decide) rfl).1 rfl (by decide) (by decide),
    (submitHandler_download_name none convertForm _ blankPage (binaryResponse none) _
      (js "report.docx") rfl rfl rfl (by decide) rfl).2 rfl⟩

/-- Counterexample to C3 as stated: the name `o'brien.docx` has no double
quote and no line break, yet the download is named `obrien.docx`. -/
theorem submitHandler_download_name_single_quote :
    (∀ c ∈ js "o\x27brien.docx", c ≠ 34 ∧ isLineTerminator c = false)
      ∧ (submitHandler none convertForm
          (fun _ => .ok (binaryResponse (some (js "attachment; filename=\"o\x27brien.docx\""))))
          blankPage).downloads = [js "obrien.docx"]
      ∧ (submitHandler none convertForm
          (fun _ => .ok (binaryResponse (some (js "attachment; filename=\"o\x27brien.docx\""))))
          blankPage).downloads ≠ [js "o\x27brien.docx"] := by
  decide

/-! ## Endpoints -/

/-- Reading an attribute back after setting it. -/
theorem getAttribute_setAttribute (form : Form) (name value : JSString) :
    (form.setAttribute name value).getAttribute name = some value := by
  unfold Form.setAttribute Form.getAttribute
  split
  · rename_i h
    simp only
    generalize form.attributes = attrs at h
    induction attrs with
    | nil => simp at h
    | cons a rest ih =>
      by_cases ha : (a.1 == name) = true
      · simp only [List.map_cons, ha, if_true, List.find?_cons, Option.map]
      · have hf : (a.1 == name) = false := Bool.eq_false_iff.mpr ha
        simp only [List.any_cons, hf, Bool.false_or] at h
        simp only [List.map_cons, hf, Bool.false_eq_true, if_false, List.find?_cons]
        exact ih h
  · rename_i h
    simp only
    generalize form.attributes = attrs at h
    induction attrs with
    | nil => simp only [List.nil_append, List.find?_cons, beq_self_eq_true, Option.map]
    | cons a rest ih =>
      simp only [List.any_cons, Bool.or_eq_true, not_or] at h
      have hf : (a.1 == name) = false := Bool.eq_false_iff.mpr h.1
      simp only [List.cons_append, List.find?_cons, hf]
      exact ih h.2

/-- The effect of a rendering leaves the list of requests as it was. -/
theorem applyRendering_requests (hljs : Option Highlighter) (rendering : Rendering)
    (page : Page) : (applyRendering hljs rendering page).1.requests = page.requests := by
  unfold applyRendering
  simp only
  split
  · split <;> rfl
  · rfl

/-- The `try` block leaves the list of requests as it was. -/
theorem submitTry_requests (hljs : Option Highlighter) (fetched : Except Thrown Response)
    (page : Page) : (submitTry hljs fetched page).1.requests = page.requests := by
  unfold submitTry
  cases fetched with
  | error e => rfl
  | ok response =>
    simp only
    split
    · rfl
    · cases response.contentType with
      | none => rfl
      | some ct =>
        simp only
        split
        · cases response.json with
          | error e => rfl
          | ok data =>
            simp only
            cases renderJSONResults data with
            | error e => rfl
            | ok written =>
              cases written with
              | none => rfl
              | some rendering =>
                simp only
                have h2 := applyRendering_requests hljs rendering page
                generalize applyRendering hljs rendering page = result at h2
                obtain ⟨left, thrown⟩ := result
                cases thrown <;> exact h2
        · cases response.blob with
          | error e => rfl
          | ok _ => rfl

/-- Each submission passes to `fetch` the `data-endpoint` attribute of its
form. -/
theorem submitHandler_requests (hljs : Option Highlighter) (form : Form)
    (fetch : Option JSString → Except Thrown Response) (page : Page) :
    (submitHandler hljs form fetch page).requests
      = page.requests ++ [form.getAttribute (js "data-endpoint")] := by
  unfold submitHandler
  simp only
  split
  · rename_i done h
    have h2 := submitTry_requests hljs (fetch (form.getAttribute (js "data-endpoint")))
      { overlayDisplay := js "flex", resultsDisplay := js "none", resultsBody := [],
        alerts := page.alerts, downloads := page.downloads,
        requests := page.requests ++ [form.getAttribute (js "data-endpoint")],
        copyHtml := page.copyHtml, copyClasses := page.copyClasses, timers := page.timers,
        now := page.now, consoleErrors := page.consoleErrors }
    rw [h] at h2
    exact h2
  · rename_i left error h
    have h2 := submitTry_requests hljs (fetch (form.getAttribute (js "data-endpoint")))
      { overlayDisplay := js "flex", resultsDisplay := js "none", resultsBody := [],
        alerts := page.alerts, downloads := page.downloads,
        requests := page.requests ++ [form.getAttribute (js "data-endpoint")],
        copyHtml := page.copyHtml, copyClasses := page.copyClasses, timers := page.timers,
        now := page.now, consoleErrors := page.consoleErrors }
    rw [h] at h2
    exact h2

/-- Claim C7. For a form whose feature field (the first `input` named
`feature`) has value `v`, the endpoint computed at setup, attached to the form
and passed to `fetch` by its submissions is `/api/` followed by `v`. For a
form without a feature field, setup computes no endpoint and attaches nothing:
the form is left as it was, and its submissions pass to `fetch` whatever
`data-endpoint` attribute the form already carried. -/
theorem setupForm_endpoint (hljs : Option Highlighter) (form : Form)
    (fetch : Option JSString → Except Thrown Response) (page : Page) :
    (∀ featureInput : Input,
        (form.inputs.find? fun i => i.name == js "feature") = some featureInput →
        computedEndpoint form = some (js "/api/" ++ featureInput.value)
          ∧ (setupForm form).getAttribute (js "data-endpoint")
              = some (js "/api/" ++ featureInput.value)
          ∧ (submitHandler hljs (setupForm form) fetch page).requests
              = page.requests ++ [some (js "/api/" ++ featureInput.value)])
      ∧ ((∀ i ∈ form.inputs, i.name ≠ js "feature") →
          computedEndpoint form = none
            ∧ setupForm form = form
            ∧ (submitHandler hljs (setupForm form) fetch page).requests
                = page.requests ++ [form.getAttribute (js "data-endpoint")]) := by
  constructor
  · intro featureInput hfind
    have hc : computedEndpoint form = some (js "/api/" ++ featureInput.value) := by
      simp only [computedEndpoint, hfind, Option.map]
    have hs : (setupForm form).getAttribute (js "data-endpoint")
        = some (js "/api/" ++ featureInput.value) := by
      simp only [setupForm, hc, getAttribute_setAttribute]
    exact ⟨hc, hs, by rw [submitHandler_requests, hs]⟩
  · intro hnone
    have hfind : (form.inputs.find? fun i => i.name == js "feature") = none := by
      rw [List.find?_eq_none]
      intro i hi
      simpa using hnone i hi
    have hc : computedEndpoint form = none := by
      simp only [computedEndpoint, hfind, Option.map]
    have hs : setupForm form = form := by
      simp only [setupForm, hc]
    exact ⟨hc, hs, by rw [hs, submitHandler_requests]⟩

/-- Witness of C7: the form with feature `convert` posts to `/api/convert`,
and for a form without inputs no endpoint is computed. -/
theorem setupForm_endpoint_witness :
    (submitHandler none (setupForm convertForm)
        (fun _ => .ok (binaryResponse none)) blankPage).requests = [some (js "/api/convert")]
      ∧ computedEndpoint { attributes := [], inputs := [] } = none :=
  ⟨((setupForm_endpoint none convertForm (fun _ => .ok (binaryResponse none)) blankPage).1
      { name := js "feature", value := js "convert" } rfl).2.2,
    ((setupForm_endpoint none { attributes := [], inputs := [] }
      (fun _ => .ok (binaryResponse none)) blankPage).2 (by simp)).1⟩

/-! ## The copy button -/

/-- Claim C9 fails on the code. After two successful copies one second apart,
when the delay of the second copy has elapsed and no timer is pending, the
button still shows the check mark and not its original content; only its
classes are back. -/
theorem copiedTwice_keeps_checkmark :
    copiedTwice.now = 1000 + 2000
      ∧ copiedTwice.timers.length = 0
      ∧ copiedTwice.copyHtml = js "<i class=\"bi bi-check-lg\"></i>"
      ∧ copiedTwice.copyHtml ≠ blankPage.copyHtml
      ∧ copiedTwice.copyClasses = [js "btn", js "btn-outline-secondary"] := by
  decide

/-- Claim C10, amended. When the clipboard write of a copy action fails with
an error `e`, the copy action shows one alert with the fixed text
`Failed to copy to clipboard`; `e` is passed to `console.error` only. -/
theorem copyClick_failure_alert (rendered : Rendered)
    (writeText : JSString → Except Thrown Unit) (page : Page) (e : Thrown)
    (htext : textToCopy rendered ≠ js "")
    (hfail : writeText (textToCopy rendered) = .error e) :
    (copyClick rendered writeText page).alerts
        = page.alerts ++ [Message.text (js "Failed to copy to clipboard")]
      ∧ (copyClick rendered writeText page).consoleErrors
        = page.consoleErrors ++ [e.message] := by
  have htext2 : textToCopy rendered ≠ [] := htext
  simp [copyClick, htext2, hfail, copyCatch]

/-- Witness of C10: a write rejected with `Write permission denied`. -/
theorem copyClick_failure_alert_witness :
    (copyClick helloRendered (fun _ => .error (.error (js "Write permission denied")))
        blankPage).alerts = [Message.text (js "Failed to copy to clipboard")] :=
  (copyClick_failure_alert helloRendered _ blankPage (.error (js "Write permission denied"))
    (by decide) rfl).1

/-- Counterexample to C10 as stated: for a write rejected with the message
`Write permission denied`, the text of the alert does not contain that
message. -/
theorem copyClick_alert_without_message :
    (copyClick helloRendered (fun _ => .error (.error (js "Write permission denied")))
        blankPage).alerts = [Message.text (js "Failed to copy to clipboard")]
      ∧ includes (js "Failed to copy to clipboard") (js "Write permission denied") = false := by
  decide

/-! ## The rendering routine -/

/-- The cascade of `renderJSONResults` on an object, branch by branch. -/
theorem renderJSONResults_object (props : List (JSString × JSValue)) :
    renderJSONResults (.object props)
      = if (lookupProp (js "metadata") props).truthy then
          (metadataBranch (lookupProp (js "metadata") props)).map
            fun html => some { html := html, highlight := false }
        else if (lookupProp (js "text") props).truthy then
          (textBranch (lookupProp (js "text") props)).map
            fun html => some { html := html, highlight := false }
        else if (lookupProp (js "markdown") props).isDefined then
          (markdownBranch (lookupProp (js "markdown") props)).map
            fun html => some { html := html, highlight := true }
        else if (lookupProp (js "images") props).truthy then
          (imagesBranch (lookupProp (js "images") props)).map
            fun html => some { html := html, highlight := false }
        else if (lookupProp (js "tables") props).truthy then
          (tablesBranch (lookupProp (js "tables") props)).map
            fun html => some { html := html, highlight := false }
        else .ok none := by
  simp only [renderJSONResults, JSValue.get, bind, Except.bind, pure, Except.pure]
  repeat' split
  all_goals first | rfl | (simp only [Functor.map, Except.map, *])

/-- The model of `ToBoolean` agrees with the list of falsy values. -/
theorem truthy_eq_not_isFalsy (v : JSValue) : v.truthy = !isFalsy v := by
  cases v with
  | string s => cases s <;> rfl
  | _ => simp [JSValue.truthy, isFalsy]

/-- A template literal shows a primitive as its text. -/
theorem toStr_primitive (p : Primitive) : p.value.toStr = .ok p.text := by
  cases p with
  | bool b => cases b <;> rfl
  | _ => rfl

/-- The loop of the metadata branch appends one row per entry, in order. -/
theorem forOf_metadataLine (pairs : List (JSString × Primitive)) (html : JSString) :
    forOf metadataLine (pairs.map fun p => (p.1, p.2.value)) html
      = .ok (html ++ (pairs.map fun p => metadataRowMarkup p.1 p.2.text).flatten) := by
  induction pairs generalizing html with
  | nil => simp [forOf]
  | cons p rest ih =>
    simp only [List.map_cons, forOf, metadataLine, toStr_primitive, ih, List.flatten_cons,
      metadataRowMarkup, List.append_assoc]

/-- The metadata branch on a mapping of primitives writes the metadata table. -/
theorem metadataBranch_primitives (pairs : List (JSString × Primitive)) :
    metadataBranch (.object (pairs.map fun p => (p.1, p.2.value)))
      = .ok (metadataTableMarkup (pairs.map fun p => (p.1, p.2.text))) := by
  simp only [metadataBranch, objectEntries, bind, Except.bind, pure, Except.pure,
    forOf_metadataLine, metadataTableMarkup, List.map_map, List.append_assoc]
  rfl

/-- The three chained replacements on a list of code units escape each code
unit once. -/
theorem replaceUnit_chain (m : JSString) :
    replaceUnit (replaceUnit (replaceUnit m 38 (js "&amp;")) 60 (js "&lt;")) 62 (js "&gt;")
      = escapedText m := by
  unfold replaceUnit escapedText
  induction m with
  | nil => rfl
  | cons c rest ih =>
    simp only [List.flatMap_cons, List.flatMap_append, ih]
    congr 1
    unfold escapeOnce
    by_cases h1 : c = 38
    · subst h1; decide
    · by_cases h2 : c = 60
      · subst h2; decide
      · by_cases h3 : c = 62
        · subst h3; decide
        · simp [h1, h2, h3]

/-- No escaped code unit leaves a raw angle bracket. -/
theorem escapeOnce_no_angle (c : Nat) : 60 ∉ escapeOnce c ∧ 62 ∉ escapeOnce c := by
  unfold escapeOnce
  by_cases h1 : c = 38
  · subst h1; decide
  · by_cases h2 : c = 60
    · subst h2; decide
    · by_cases h3 : c = 62
      · subst h3; decide
      · simp [h1, h2, h3]
        exact ⟨fun h => h2 h.symm, fun h => h3 h.symm⟩

/-- The markdown branch on a string writes the one-pass escape of it. -/
theorem markdownBranch_string (m : JSString) :
    markdownBranch (.string m)
      = .ok (js "<pre><code class=\"language-markdown\" style=\"border-radius: 8px;\">"
          ++ escapedText m ++ js "</code></pre>") := by
  have h : escapeMarkdown (.string m) = .ok (escapedText m) := by
    unfold escapeMarkdown
    cases m with
    | nil => rfl
    | cons c rest =>
      have ht : (JSValue.string (c :: rest)).truthy = true := rfl
      simp only [ht, if_true, replaceUnit_chain]
  simp only [markdownBranch, h, bind, Except.bind, pure, Except.pure]

/-- Claim C2. When the markdown branch renders a string `m`, the text written
between the opening `code` tag and `</code>` is `m` with every character
escaped exactly once (`&` to `&amp;`, `<` to `&lt;`, `>` to `&gt;`), and it
holds no raw `<` or `>`. -/
theorem renderJSONResults_markdown_escaped (props : List (JSString × JSValue)) (m : JSString)
    (hmetadata : (lookupProp (js "metadata") props).truthy = false)
    (htext : (lookupProp (js "text") props).truthy = false)
    (hmarkdown : lookupProp (js "markdown") props = .string m) :
    renderJSONResults (.object props)
        = .ok (some
            { html := js "<pre><code class=\"language-markdown\" style=\"border-radius: 8px;\">"
                ++ escapedText m ++ js "</code></pre>",
              highlight := true })
      ∧ escapedText m = m.flatMap escapeOnce
      ∧ 60 ∉ escapedText m ∧ 62 ∉ escapedText m := by
  refine ⟨?_, rfl, ?_, ?_⟩
  · rw [renderJSONResults_object]
    simp [hmetadata, htext, hmarkdown, JSValue.isDefined, markdownBranch_string, Except.map]
  · simp only [escapedText, List.mem_flatMap, not_exists, not_and]
    exact fun c _ => (escapeOnce_no_angle c).1
  · simp only [escapedText, List.mem_flatMap, not_exists, not_and]
    exact fun c _ => (escapeOnce_no_angle c).2

/-- Witness of C2: for `{"markdown": "<b>x</b>"}` the written text is
`&lt;b&gt;x&lt;/b&gt;`. -/
theorem renderJSONResults_markdown_escaped_witness :
    renderJSONResults (.object [(js "markdown", .string (js "<b>x</b>"))])
        = .ok (some
            { html := js "<pre><code class=\"language-markdown\" style=\"border-radius: 8px;\">"
                ++ js "&lt;b&gt;x&lt;/b&gt;" ++ js "</code></pre>",
              highlight := true })
      ∧ escapedText (js "<b>x</b>") = js "&lt;b&gt;x&lt;/b&gt;" :=
  ⟨(renderJSONResults_markdown_escaped [(js "markdown", .string (js "<b>x</b>"))]
      (js "<b>x</b>") rfl rfl rfl).1, by decide⟩

/-- The loop of the images branch appends one card per image, in order. -/
theorem forEachFrom_imageCard (items : List JSValue) (imgs : List Image)
    (h : List.Forall₂ IsImage items imgs) (i : Nat) (html : JSString) :
    forEachFrom imageCard i items html = .ok (html ++ (imgs.map imageCardMarkup).flatten) := by
  induction h generalizing i html with
  | nil => simp [forEachFrom]
  | cons hhead _ ih =>
    obtain ⟨own, hown, hmime, hdata, hfilename⟩ := hhead
    subst hown
    simp only [forEachFrom, imageCard, JSValue.get, hmime, hdata, hfilename, JSValue.toStr,
      bind, Except.bind, pure, Except.pure, ih, List.map_cons, List.flatten_cons,
      imageCardMarkup, List.append_assoc]

/-- The loop over the cells of a row appends one cell per string, in order. -/
theorem forEachFrom_tableCell (cells : List JSString) (i : Nat) (html : JSString) :
    forEachFrom tableCell i (cells.map fun cell => JSValue.string cell) html
      = .ok (html ++ (cells.map fun cell => js "<td>" ++ cell ++ js "</td>").flatten) := by
  induction cells generalizing i html with
  | nil => simp [forEachFrom]
  | cons cell rest ih =>
    simp only [List.map_cons, forEachFrom, tableCell, JSValue.toStr, bind, Except.bind, pure,
      Except.pure, ih, List.flatten_cons, List.append_assoc]

/-- The loop over the rows of a table appends one grid row per row, in order. -/
theorem forEachFrom_tableRow (rows : List (List JSString)) (i : Nat) (html : JSString) :
    forEachFrom tableRow i
        (rows.map fun cells => JSValue.array (cells.map fun cell => JSValue.string cell)) html
      = .ok (html ++ (rows.map gridRowMarkup).flatten) := by
  induction rows generalizing i html with
  | nil => simp [forEachFrom]
  | cons cells rest ih =>
    simp only [List.map_cons, forEachFrom, tableRow, forEach, forEachFrom_tableCell, bind,
      Except.bind, pure, Except.pure, ih, List.flatten_cons, gridRowMarkup, List.append_assoc]

/-- The loop over the tables appends one numbered grid per table, in order. -/
theorem forEachFrom_tableGrid (tables : List (List (List JSString))) (i : Nat)
    (html : JSString) :
    forEachFrom tableGrid i (tables.map tableValue) html
      = .ok (html ++ tableGridsMarkup i tables) := by
  induction tables generalizing i html with
  | nil => simp [forEachFrom, tableGridsMarkup]
  | cons rows rest ih =>
    simp only [List.map_cons, forEachFrom, tableGrid, tableValue, forEach,
      forEachFrom_tableRow, bind, Except.bind, pure, Except.pure, ih, tableGridsMarkup,
      List.append_assoc]

/-- Claim C1, amended. On a parsed object, `renderJSONResults` runs exactly
the first matching branch in the order metadata, text, markdown, images,
tables, where metadata, text, images and tables match when their value is
truthy and markdown matches when it is defined, whatever other keys the
object carries. A metadata mapping of primitives is written as the metadata
table; else a non-empty text string is written verbatim in a `textarea` of ten
rows; else a markdown string, also the empty one, or `null` is written as the
escaped code block, which is then handed to the highlighter; else an array of
images is written as the image grid; else an array of tables of string cells
is written as the numbered table grids; when every value is falsy and markdown
is undefined nothing is written. A result that is a boolean, a number, a
string or an array matches no branch. In the submit handler what is written
becomes the results body: it stays empty when nothing is written, and the
code block is replaced by what the highlighter, if present, leaves. -/
theorem renderJSONResults_first_match (props : List (JSString × JSValue)) :
    (∀ pairs : List (JSString × Primitive),
        lookupProp (js "metadata") props = .object (pairs.map fun p => (p.1, p.2.value)) →
        renderJSONResults (.object props)
          = .ok (some { html := metadataTableMarkup (pairs.map fun p => (p.1, p.2.text)),
                        highlight := false }))
      ∧ (∀ text : JSString,
          isFalsy (lookupProp (js "metadata") props) = true →
          lookupProp (js "text") props = .string text → text ≠ js "" →
          renderJSONResults (.object props)
            = .ok (some { html := textBoxMarkup text, highlight := false }))
      ∧ (∀ m : JSString,
          isFalsy (lookupProp (js "metadata") props) = true →
          isFalsy (lookupProp (js "text") props) = true →
          (lookupProp (js "markdown") props = .string m
            ∨ (lookupProp (js "markdown") props = .null ∧ m = js "")) →
          renderJSONResults (.object props)
            = .ok (some { html := markdownBlockMarkup m, highlight := true }))
      ∧ (∀ (items : List JSValue) (imgs : List Image),
          isFalsy (lookupProp (js "metadata") props) = true →
          isFalsy (lookupProp (js "text") props) = true →
          lookupProp (js "markdown") props = .undefined →
          lookupProp (js "images") props = .array items →
          List.Forall₂ IsImage items imgs →
          renderJSONResults (.object props)
            = .ok (some { html := imageGridMarkup imgs, highlight := false }))
      ∧ (∀ tables : List (List (List JSString)),
          isFalsy (lookupProp (js "metadata") props) = true →
          isFalsy (lookupProp (js "text") props) = true →
          lookupProp (js "markdown") props = .undefined →
          isFalsy (lookupProp (js "images") props) = true →
          lookupProp (js "tables") props = .array (tables.map tableValue) →
          renderJSONResults (.object props)
            = .ok (some { html := tableGridsMarkup 0 tables, highlight := false }))
      ∧ (isFalsy (lookupProp (js "metadata") props) = true →
          isFalsy (lookupProp (js "text") props) = true →
          lookupProp (js "markdown") props = .undefined →
          isFalsy (lookupProp (js "images") props) = true →
          isFalsy (lookupProp (js "tables") props) = true →
          renderJSONResults (.object props) = .ok none)
      ∧ (∀ data : JSValue, (∀ own, data ≠ .object own) → data ≠ .null → data ≠ .undefined →
          renderJSONResults data = .ok none)
      ∧ (∀ (hljs : Option Highlighter) (form : Form)
          (fetch : Option JSString → Except Thrown Response) (page : Page) (r : Response)
          (ct : JSString) (data : JSValue),
          fetch (form.getAttribute (js "data-endpoint")) = .ok r →
          r.ok = true → r.contentType = some ct →
          includes ct (js "application/json") = true → r.json = .ok data →
          (renderJSONResults data = .ok none →
              (submitHandler hljs form fetch page).resultsBody = js "")
            ∧ (∀ html : JSString,
                renderJSONResults data = .ok (some { html := html, highlight := false }) →
                (submitHandler hljs form fetch page).resultsBody = html)
            ∧ (∀ html : JSString,
                renderJSONResults data = .ok (some { html := html, highlight := true }) →
                (submitHandler hljs form fetch page).resultsBody
                  = match hljs with
                    | none => html
                    | some highlightElement => (highlightElement html).1)) := by
  have falsy : ∀ v : JSValue, isFalsy v = true → v.truthy = false := by
    intro v h
    rw [truthy_eq_not_isFalsy, h]
    rfl
  refine ⟨?_, ?_, ?_, ?_, ?_, ?_, ?_, ?_⟩
  · intro pairs hmetadata
    rw [renderJSONResults_object, hmetadata]
    simp only [JSValue.truthy, if_true, metadataBranch_primitives, Except.map]
  · intro text hmetadata htext hne
    have hne2 : text ≠ [] := hne
    have h1 := falsy _ hmetadata
    have ht : (JSValue.string text).truthy = true := by simp [JSValue.truthy, hne2]
    rw [renderJSONResults_object, htext]
    simp [h1, ht, textBranch, JSValue.toStr, bind, Except.bind, pure, Except.pure,
      Except.map, textBoxMarkup]
  · intro m hmetadata htext hmarkdown
    have h1 := falsy _ hmetadata
    have h2 := falsy _ htext
    rw [renderJSONResults_object]
    rcases hmarkdown with hm | ⟨hm, hempty⟩
    · simp [h1, h2, hm, JSValue.isDefined, markdownBranch_string, Except.map,
        markdownBlockMarkup]
    · subst hempty
      simp [h1, h2, hm, JSValue.isDefined, Except.map]
      rfl
  · intro items imgs hmetadata htext hmarkdown himages hshape
    have h1 := falsy _ hmetadata
    have h2 := falsy _ htext
    have hi : (JSValue.array items).truthy = true := rfl
    rw [renderJSONResults_object, himages]
    simp [h1, h2, hi, hmarkdown, JSValue.isDefined, imagesBranch,
      forEach, forEachFrom_imageCard items imgs hshape, bind, Except.bind, pure, Except.pure,
      Except.map, imageGridMarkup]
  · intro tables hmetadata htext hmarkdown himages htables
    have h1 := falsy _ hmetadata
    have h2 := falsy _ htext
    have h3 := falsy _ himages
    have ht : (JSValue.array (tables.map tableValue)).truthy = true := rfl
    rw [renderJSONResults_object, htables]
    simp [h1, h2, h3, ht, hmarkdown, JSValue.isDefined, tablesBranch,
      forEach, forEachFrom_tableGrid, Except.map]
  · intro hmetadata htext hmarkdown himages htables
    have h1 := falsy _ hmetadata
    have h2 := falsy _ htext
    have h3 := falsy _ himages
    have h4 := falsy _ htables
    rw [renderJSONResults_object]
    simp [h1, h2, h3, h4, hmarkdown, JSValue.isDefined]
  · intro data hobject hnull hundefined
    cases data with
    | undefined => exact absurd rfl hundefined
    | null => exact absurd rfl hnull
    | object own => exact absurd rfl (hobject own)
    | bool b => rfl
    | number n => rfl
    | string s => rfl
    | array items => rfl
  · intro hljs form fetch page r ct data hfetch hok htype hjson hbody
    refine ⟨?_, ?_, ?_⟩
    · intro hrender
      simp [submitHandler, submitTry, hfetch, hok, htype, hjson, hbody, hrender]
      rfl
    · intro html hrender
      simp [submitHandler, submitTry, applyRendering, hfetch, hok, htype, hjson, hbody,
        hrender]
    · intro html hrender
      cases hljs with
      | none =>
        simp [submitHandler, submitTry, applyRendering, hfetch, hok, htype, hjson, hbody,
          hrender]
      | some highlightElement =>
        simp only [submitHandler, submitTry, applyRendering, hfetch, hok, htype, hjson, hbody,
          hrender]
        cases (highlightElement html).2 <;> simp

/-- Witness of C1: the text branch wins over the markdown branch, and an
array of images and an array of tables are written as their grids. -/
theorem renderJSONResults_first_match_witness :
    renderJSONResults
        (.object [(js "text", .string (js "hello")), (js "markdown", .string (js "# hello"))])
        = .ok (some { html := js "<textarea class=\"form-control\" rows=\"10\">hello</textarea>",
                      highlight := false })
      ∧ renderJSONResults
          (.object [(js "images", .array [.object [(js "mime", .string (js "image/png")),
            (js "data", .string (js "iVBORw0KGgo=")), (js "filename", .string (js "a.png"))]])])
        = .ok (some { html := imageGridMarkup
                        [{ mime := js "image/png", data := js "iVBORw0KGgo=",
                           filename := js "a.png" }],
                      highlight := false })
      ∧ renderJSONResults (.object [(js "tables", .array [tableValue [[js "a", js "b"]]])])
        = .ok (some { html := js "<h5>Table 1</h5><table class=\"table table-bordered table-sm mb-4\"><tr><td>a</td><td>b</td></tr></table>",
                      highlight := false }) :=
  ⟨(renderJSONResults_first_match
      [(js "text", .string (js "hello")), (js "markdown", .string (js "# hello"))]).2.1
      (js "hello") rfl rfl (by decide),
    (renderJSONResults_first_match
      [(js "images", .array [.object [(js "mime", .string (js "image/png")),
        (js "data", .string (js "iVBORw0KGgo=")), (js "filename", .string (js "a.png"))]])]).2.2.2.1
      _ [{ mime := js "image/png", data := js "iVBORw0KGgo=", filename := js "a.png" }]
      rfl rfl rfl rfl (List.Forall₂.cons ⟨_, rfl, rfl, rfl, rfl⟩ List.Forall₂.nil),
    (renderJSONResults_first_match
      [(js "tables", .array [tableValue [[js "a", js "b"]]])]).2.2.2.2.1
      [[[js "a", js "b"]]] rfl rfl rfl rfl rfl⟩

/-- Counterexample to C1 as stated. In `{"text": ""}` the key `text` is
present and `metadata` is not, yet no text box is rendered and the handler
leaves the results body empty. The text box written for `{"text": "hello"}`
carries no `readonly` attribute. For `{"images": 1}`, `{"markdown": 5}` and
`{"text": {"toString": null, "valueOf": 3}}` the key is present and the call
throws before writing anything. -/
theorem renderJSONResults_present_not_rendered :
    lookupProp (js "text") [(js "text", JSValue.string (js ""))] = .string (js "")
      ∧ lookupProp (js "metadata") [(js "text", JSValue.string (js ""))] = .undefined
      ∧ renderJSONResults (.object [(js "text", .string (js ""))]) = .ok none
      ∧ (submitHandler none convertForm
          (fun _ => .ok (jsonSuccess (.object [(js "text", .string (js ""))])))
          blankPage).resultsBody = js ""
      ∧ renderJSONResults (.object [(js "text", .string (js "hello"))])
        = .ok (some { html := js "<textarea class=\"form-control\" rows=\"10\">hello</textarea>",
                      highlight := false })
      ∧ includes (js "<textarea class=\"form-control\" rows=\"10\">hello</textarea>")
          (js "readonly") = false
      ∧ renderJSONResults (.object [(js "images", .number { shown := js "1", truthy := true })])
        = .error .typeError
      ∧ renderJSONResults
          (.object [(js "markdown", .number { shown := js "5", truthy := true })])
        = .error .typeError
      ∧ renderJSONResults
          (.object [(js "text", .object [(js "toString", .null),
            (js "valueOf", .number { shown := js "3", truthy := true })])])
        = .error .typeError := by
  refine ⟨rfl, rfl, rfl, rfl, rfl, by decide, rfl, rfl, rfl⟩

/-! ## The rows of the metadata table -/

/-- Text without `<` stays in the text being read. -/
theorem pieces_text (t : JSString) (h : 60 ∉ t) (acc rest : JSString) :
    pieces false acc (t ++ rest) = pieces false (acc ++ t) rest := by
  induction t generalizing acc with
  | nil => simp
  | cons c tail ih =>
    have hc : c ≠ 60 := fun e => h (by simp [e])
    have ht : 60 ∉ tail := fun e => h (by simp [e])
    have step : pieces false acc (c :: (tail ++ rest))
        = pieces false (acc ++ [c]) (tail ++ rest) := by
      simp [pieces, hc]
    rw [List.cons_append, step, ih ht]
    simp

/-- A tag is read up to its closing `>`. -/
theorem pieces_tag (t : JSString) (h : 62 ∉ t) (acc rest : JSString) :
    pieces true acc (t ++ 62 :: rest) = Piece.tag (acc ++ t) :: pieces false [] rest := by
  induction t generalizing acc with
  | nil => simp [pieces]
  | cons c tail ih =>
    have hc : c ≠ 62 := fun e => h (by simp [e])
    have ht : 62 ∉ tail := fun e => h (by simp [e])
    have step : pieces true acc (c :: (tail ++ 62 :: rest))
        = pieces true (acc ++ [c]) (tail ++ 62 :: rest) := by
      simp [pieces, hc]
    rw [List.cons_append, step, ih ht]
    simp

/-- A `<` ends the text being read and opens a tag. -/
theorem pieces_open (acc rest : JSString) :
    pieces false acc (60 :: rest) = Piece.text acc :: pieces true [] rest := by
  simp [pieces]

/-- Text then a whole tag. -/
theorem pieces_text_tag (t inside : JSString) (ht : 60 ∉ t) (hi : 62 ∉ inside)
    (rest : JSString) :
    pieces false [] (t ++ 60 :: (inside ++ 62 :: rest))
      = Piece.text t :: Piece.tag inside :: pieces false [] rest := by
  rw [pieces_text t ht, pieces_open, pieces_tag inside hi]
  simp

/-- The pieces of one row of the metadata table whose key and text hold no
`<`. -/
theorem pieces_metadataRow (key shown : JSString) (hkey : 60 ∉ key) (hshown : 60 ∉ shown)
    (rest : JSString) :
    pieces false [] (metadataRowMarkup key shown ++ rest)
      = [Piece.text [], Piece.tag (js "tr"), Piece.text [],
          Piece.tag (js "th scope=\"row\" style=\"width: 30%\""), Piece.text key,
          Piece.tag (js "/th"), Piece.text [], Piece.tag (js "td"), Piece.text shown,
          Piece.tag (js "/td"), Piece.text [], Piece.tag (js "/tr")]
        ++ pieces false [] rest := by
  have hshape : metadataRowMarkup key shown ++ rest
      = [] ++ 60 :: (js "tr" ++ 62 :: ([] ++ 60 :: (js "th scope=\"row\" style=\"width: 30%\""
          ++ 62 :: (key ++ 60 :: (js "/th" ++ 62 :: ([] ++ 60 :: (js "td" ++ 62 :: (shown
          ++ 60 :: (js "/td" ++ 62 :: ([] ++ 60 :: (js "/tr" ++ 62 :: rest))))))))))) := by
    have hA : js "<tr><th scope=\"row\" style=\"width: 30%\">"
        = 60 :: (js "tr" ++ 62 :: 60 :: (js "th scope=\"row\" style=\"width: 30%\"" ++ [62])) :=
      rfl
    have hB : js "</th><td>" = 60 :: (js "/th" ++ 62 :: 60 :: (js "td" ++ [62])) := rfl
    have hC : js "</td></tr>" = 60 :: (js "/td" ++ 62 :: 60 :: (js "/tr" ++ [62])) := rfl
    simp only [metadataRowMarkup, hA, hB, hC, List.append_assoc, List.cons_append,
      List.nil_append]
  have hnil : (60 : Nat) ∉ ([] : JSString) := by simp
  rw [hshape,
    pieces_text_tag [] (js "tr") hnil (by decide),
    pieces_text_tag [] (js "th scope=\"row\" style=\"width: 30%\"") hnil (by decide),
    pieces_text_tag key (js "/th") hkey (by decide),
    pieces_text_tag [] (js "td") hnil (by decide),
    pieces_text_tag shown (js "/td") hshown (by decide),
    pieces_text_tag [] (js "/tr") hnil (by decide)]
  rfl

/-- The reader over the pieces of one row adds the row of its two cells. -/
theorem read_metadataRow (done : List (List JSString)) (key shown : JSString) :
    [Piece.text [], Piece.tag (js "tr"), Piece.text [],
        Piece.tag (js "th scope=\"row\" style=\"width: 30%\""), Piece.text key,
        Piece.tag (js "/th"), Piece.text [], Piece.tag (js "td"), Piece.text shown,
        Piece.tag (js "/td"), Piece.text [], Piece.tag (js "/tr")].foldl TableReader.step
        { rows := done, row := [], cell := none }
      = { rows := done ++ [[key, shown]], row := [], cell := none } := by
  simp [List.foldl, TableReader.step, isTag, js, utf16]

/-- The reader over the rows of the metadata table adds one row per entry. -/
theorem read_metadataRows (rows : List (JSString × JSString))
    (h : ∀ r ∈ rows, 60 ∉ r.1 ∧ 60 ∉ r.2) (done : List (List JSString)) (rest : JSString) :
    (pieces false [] ((rows.map fun r => metadataRowMarkup r.1 r.2).flatten ++ rest)).foldl
        TableReader.step { rows := done, row := [], cell := none }
      = (pieces false [] rest).foldl TableReader.step
          { rows := done ++ rows.map (fun r => [r.1, r.2]), row := [], cell := none } := by
  induction rows generalizing done with
  | nil => simp
  | cons r tail ih =>
    have hr := h r (by simp)
    have htail : ∀ x ∈ tail, 60 ∉ x.1 ∧ 60 ∉ x.2 := fun x hx => h x (by simp [hx])
    rw [List.map_cons, List.flatten_cons, List.append_assoc,
      pieces_metadataRow r.1 r.2 hr.1 hr.2, List.foldl_append, read_metadataRow, ih htail]
    simp

/-- The pieces of the opening tags of the metadata table. -/
theorem pieces_metadataOpen (rest : JSString) :
    pieces false [] (js "<table class=\"table table-striped\"><tbody>" ++ rest)
      = [Piece.text [], Piece.tag (js "table class=\"table table-striped\""), Piece.text [],
          Piece.tag (js "tbody")] ++ pieces false [] rest := by
  have hshape : js "<table class=\"table table-striped\"><tbody>" ++ rest
      = [] ++ 60 :: (js "table class=\"table table-striped\"" ++ 62 :: ([] ++ 60 :: (js "tbody"
          ++ 62 :: rest))) := rfl
  have hnil : (60 : Nat) ∉ ([] : JSString) := by simp
  rw [hshape,
    pieces_text_tag [] (js "table class=\"table table-striped\"") hnil (by decide),
    pieces_text_tag [] (js "tbody") hnil (by decide)]
  rfl

/-- Reading back the metadata table whose keys and texts hold no `<` gives
its rows, each a key and the text of its value. -/
theorem readRows_metadataTable (rows : List (JSString × JSString))
    (h : ∀ r ∈ rows, 60 ∉ r.1 ∧ 60 ∉ r.2) :
    readRows (metadataTableMarkup rows) = rows.map fun r => [r.1, r.2] := by
  have hstart : [Piece.text [], Piece.tag (js "table class=\"table table-striped\""),
      Piece.text [], Piece.tag (js "tbody")].foldl TableReader.step
        { rows := [], row := [], cell := none }
      = { rows := [], row := [], cell := none } := by
    rfl
  have hclose : pieces false [] (js "</tbody></table>")
      = [Piece.text [], Piece.tag (js "/tbody"), Piece.text [], Piece.tag (js "/table"),
          Piece.text []] := by
    decide
  unfold readRows metadataTableMarkup
  rw [List.append_assoc, pieces_metadataOpen, List.foldl_append, hstart,
    read_metadataRows rows h, hclose]
  simp [List.foldl, TableReader.step, isTag, js, utf16]

/-- Claim C8, amended. When the metadata branch renders a mapping of `n`
entries whose values are primitives, the markup written is the opening tags of
the table, then one fragment per entry in the entry order of the mapping, a
header cell around the key and a data cell around the text of the value, both
verbatim, then the closing tags. When no key and no text holds `<`, the table
read back tag by tag has exactly `n` rows, the `i`-th made of a header cell
holding the `i`-th key and a data cell holding the text of the `i`-th value. -/
theorem renderJSONResults_metadata_rows (props : List (JSString × JSValue))
    (pairs : List (JSString × Primitive))
    (hmetadata :
      lookupProp (js "metadata") props = .object (pairs.map fun p => (p.1, p.2.value))) :
    renderJSONResults (.object props)
        = .ok (some
            { html := js "<table class=\"table table-striped\"><tbody>"
                ++ (pairs.map fun p =>
                      js "<tr><th scope=\"row\" style=\"width: 30%\">" ++ p.1
                        ++ js "</th><td>" ++ p.2.text ++ js "</td></tr>").flatten
                ++ js "</tbody></table>",
              highlight := false })
      ∧ ((∀ p ∈ pairs, 60 ∉ p.1 ∧ 60 ∉ p.2.text) →
          ∀ html : JSString,
            renderJSONResults (.object props) = .ok (some { html := html, highlight := false }) →
            readRows html = pairs.map (fun p => [p.1, p.2.text])
              ∧ (readRows html).length = pairs.length) := by
  have hrender : renderJSONResults (.object props)
      = .ok (some { html := metadataTableMarkup (pairs.map fun p => (p.1, p.2.text)),
                    highlight := false }) := by
    rw [renderJSONResults_object, hmetadata]
    simp only [JSValue.truthy, if_true, metadataBranch_primitives, Except.map]
  constructor
  · rw [hrender]
    simp only [metadataTableMarkup, metadataRowMarkup, List.map_map]
    rfl
  · intro hclean html hhtml
    rw [hrender] at hhtml
    have heq : metadataTableMarkup (pairs.map fun p => (p.1, p.2.text)) = html := by
      injection hhtml with h1
      injection h1 with h2
      injection h2
    subst heq
    have hread := readRows_metadataTable (pairs.map fun p => (p.1, p.2.text))
      (by
        intro r hr
        obtain ⟨p, hp, rfl⟩ := List.mem_map.mp hr
        exact hclean p hp)
    rw [hread]
    simp [List.map_map, Function.comp]

/-- Witness of C8: for `{"metadata": {"Author": "A"}}` the table has the one
row with cells `Author` and `A`. -/
theorem renderJSONResults_metadata_rows_witness :
    renderJSONResults
        (.object [(js "metadata", .object [(js "Author", .string (js "A"))])])
        = .ok (some
            { html := js "<table class=\"table table-striped\"><tbody><tr><th scope=\"row\" style=\"width: 30%\">Author</th><td>A</td></tr></tbody></table>",
              highlight := false })
      ∧ readRows (js "<table class=\"table table-striped\"><tbody><tr><th scope=\"row\" style=\"width: 30%\">Author</th><td>A</td></tr></tbody></table>")
        = [[js "Author", js "A"]] :=
  ⟨(renderJSONResults_metadata_rows
      [(js "metadata", .object [(js "Author", .string (js "A"))])]
      [(js "Author", .string (js "A"))] rfl).1,
    ((renderJSONResults_metadata_rows
      [(js "metadata", .object [(js "Author", .string (js "A"))])]
      [(js "Author", .string (js "A"))] rfl).2 (by decide) _ rfl).1⟩

/-- Counterexample to C8 as stated. The mapping
`{"Author": "A</td></tr><tr><th>B</th><td>C"}` has one entry, yet the table
written for it has two rows. For the one-entry mapping
`{"Title": {"toString": "x"}}` the metadata branch throws and no table is
written. -/
theorem renderJSONResults_metadata_extra_row :
    renderJSONResults
        (.object [(js "metadata",
          .object [(js "Author", .string (js "A</td></tr><tr><th>B</th><td>C"))])])
        = .ok (some
            { html := js "<table class=\"table table-striped\"><tbody><tr><th scope=\"row\" style=\"width: 30%\">Author</th><td>A</td></tr><tr><th>B</th><td>C</td></tr></tbody></table>",
              highlight := false })
      ∧ readRows (js "<table class=\"table table-striped\"><tbody><tr><th scope=\"row\" style=\"width: 30%\">Author</th><td>A</td></tr><tr><th>B</th><td>C</td></tr></tbody></table>")
        = [[js "Author", js "A"], [js "B", js "C"]]
      ∧ renderJSONResults
          (.object [(js "metadata",
            .object [(js "Title", .object [(js "toString", .string (js "x"))])])])
        = .error .typeError := by
  refine ⟨rfl, by decide, rfl⟩

end DocManipulation
